import Mathlib

/-!
Verification development for the gitlab-artifact-cleanup utility.

The Python sources are shallowly embedded:
* `util.py` → `human_size` and its helpers (float division by powers of 1024
  is exact for the integer inputs at stake, so the converted value is kept as
  an exact fraction `num / den`);
* `artifact_cleanup.py` → the per-job retention decision (`job_decision`),
  the per-job effect step (`process_job`), the per-project scan
  (`process_project`) and the repository loop (`delete_old_artifacts`),
  with remote calls and log lines recorded as an explicit `Event` trace and
  `ProjectGetError` modelled with `Except`;
* `config.py` / `cli.py` → the configuration value checks
  (`config_always_keep`, `config_verbosity`) and the CLI pipeline
  (`cli_main`) that performs them before any data-source access.

Timestamps are modelled as integers counting seconds, so
`timedelta(days=d)` becomes `d * 86400`.
-/

namespace GitlabArtifactCleanup

/-! ### Data model -/

/-- One artifact record of a job: a file-type tag (for example `"archive"`)
and a nullable byte size. -/
structure Artifact where
  file_type : String
  size : Option Nat
  deriving DecidableEq, Repr

/-- A CI job as consumed by `delete_old_artifacts`: identifier, the ref it
ran on, the (nullable) commit id it ran on, its artifact records and its
creation timestamp in seconds. -/
structure Job where
  id : Nat
  ref : String
  commit : Option String
  artifacts : List Artifact
  created_at : Int
  deriving DecidableEq, Repr

/-- A resolved GitLab project: path, branches and tags (name paired with
commit id, in listing order) and the job listing. -/
structure Project where
  path_with_namespace : String
  branches : List (String × String)
  tags : List (String × String)
  jobs : List Job
  deriving DecidableEq, Repr

/-- The remote server: resolving a repository path either yields a project
or fails with a `GitlabGetError`, modelled by its message. -/
structure GitlabServer where
  get_project : String → Except String Project

/-! ### `util.py`: `human_size` -/

/-- Round `100 * num / den` to the nearest integer, ties to even — the
rounding used by Python's `"%.2f"` formatting (exact on the fractions
produced by `human_size`). -/
def round_hundredths (num den : Nat) : Nat :=
  let x := 100 * num
  let q := x / den
  let r := x % den
  if 2 * r < den then q
  else if 2 * r > den then q + 1
  else if q % 2 = 0 then q else q + 1

/-- Render the fraction `num / den` with exactly two decimal places, as
Python's `f"{x:.2f}"` does for the nonnegative values at stake. -/
def format_fixed2 (num den : Nat) : String :=
  let h := round_hundredths num den
  let ip := h / 100
  let fp := h % 100
  toString ip ++ "." ++ (if fp < 10 then "0" else "") ++ toString fp

/-- The unit tuple of `human_size`. -/
def human_size_units : List String := ["B", "KiB", "MiB", "GiB", "TiB"]

/-- The loop of `human_size` over `units[:-1]`: the running value is the
exact fraction `num / den`; each iteration either returns or multiplies the
denominator by 1024, and the last unit is used when the loop runs out. -/
def human_size_go (num : Nat) (last : String) : Nat → List String → String
  | den, [] => format_fixed2 num den ++ " " ++ last
  | den, unit :: rest =>
    if num < 1024 * den then format_fixed2 num den ++ " " ++ unit
    else human_size_go num last (1024 * den) rest

/-- `util.human_size`: convert a byte count to a human readable string. -/
def human_size (size_in_bytes : Nat) : String :=
  human_size_go size_in_bytes (human_size_units.getLastD "") 1 human_size_units.dropLast

/-! ### `artifact_cleanup.py`: per-job decision -/

/-- The computation shared by `job_branch` and `job_tag` (lines 74–77):
`job.ref if job.commit is not None and job.commit["id"] == index.get(job.ref)
else None`, with the branch/tag dictionary abstracted as a lookup
function. -/
def job_link (index : String → Option String) (job : Job) : Option String :=
  match job.commit with
  | some c => if index job.ref = some c then some job.ref else none
  | none => none

/-- Build the lookup function of a Python dict comprehension over a listing:
later entries overwrite earlier ones. -/
def dict_of_list (l : List (String × String)) : String → Option String :=
  l.foldl (fun acc p => fun k => if k = p.1 then some p.2 else acc k) (fun _ => none)

/-- The big skip condition of the job loop (lines 78–87), in source order:
no artifacts, or (not deleting logs and no archive artifact), or a protected
branch link, or a protected tag link, or the job is too young. -/
def job_skip_condition (branches tags : String → Option String)
    (keep_timedelta now : Int)
    (keep_artifacts_of_latest_branch_commit keep_artifacts_of_tags delete_logs : Bool)
    (job : Job) : Bool :=
  job.artifacts.isEmpty
  || (!delete_logs && !(job.artifacts.any (fun artifact => artifact.file_type == "archive")))
  || (keep_artifacts_of_latest_branch_commit && (job_link branches job).isSome)
  || (keep_artifacts_of_tags && (job_link tags job).isSome)
  || decide (now - job.created_at ≤ keep_timedelta)

/-- The reclaimable size of a job (lines 90–94): the sum of the sizes of the
artifacts that are archives or — when logs are deleted too — of all
artifacts, a null size counting as 0. -/
def artifacts_size (delete_logs : Bool) (artifacts : List Artifact) : Nat :=
  ((artifacts.filter (fun artifact => delete_logs || artifact.file_type == "archive")).map
    (fun artifact => artifact.size.getD 0)).sum

/-- The outcome of the retention evaluation for one job. -/
inductive Decision where
  | skip : Decision
  | delete (reclaimable_bytes : Nat) : Decision
  deriving DecidableEq, Repr

/-- The retention decision for one job: `skip` when the guard of lines 78–87
fires (`continue`), otherwise `delete` with the reclaimable size. -/
def job_decision (branches tags : String → Option String)
    (keep_timedelta now : Int)
    (keep_artifacts_of_latest_branch_commit keep_artifacts_of_tags delete_logs : Bool)
    (job : Job) : Decision :=
  if job_skip_condition branches tags keep_timedelta now
      keep_artifacts_of_latest_branch_commit keep_artifacts_of_tags delete_logs job then
    Decision.skip
  else
    Decision.delete (artifacts_size delete_logs job.artifacts)

/-- The nested description formatter (lines 99–117). -/
def job_description (job_id : Nat) (job_created_at_localtime : String)
    (size : Nat) (job_branch job_tag : Option String) : String :=
  let description :=
    "job \"" ++ toString job_id ++ "\", created at \"" ++ job_created_at_localtime
      ++ "\", size \"" ++ human_size size ++ "\""
  match job_branch, job_tag with
  | some b, some t =>
    description ++ ", linked to branch \"" ++ b ++ "\" and tag \"" ++ t ++ "\""
  | some b, none => description ++ ", linked to branch \"" ++ b ++ "\""
  | none, some t => description ++ ", linked to tag \"" ++ t ++ "\""
  | none, none => description ++ ", dangling"

/-! ### `artifact_cleanup.py`: orchestration -/

/-- An observable step of `delete_old_artifacts`: the two destructive remote
calls (`job.erase()`, `job.delete_artifacts()`) and the `logger.info` lines,
with the boolean recording whether the log line is the
"artifacts and log" (`delete_logs`) variant. -/
inductive Event where
  | scanning (path : String) : Event
  | eraseCall (job_id : Nat) : Event
  | deleteArtifactsCall (job_id : Nat) : Event
  | logDeleted (logs_too : Bool) (job_id : Nat) : Event
  | logWouldDelete (logs_too : Bool) (job_id : Nat) : Event
  | projectSummary (path : String) (count size : Nat) : Event
  | projectSummaryNone (path : String) : Event
  | totalSummary (count size : Nat) : Event
  | totalSummaryNone : Event
  deriving DecidableEq, Repr

/-- The body of the job loop (lines 73–144): evaluate the skip guard, and on
a delete decision perform the remote call (unless `dry_run`), log, and
report the increments of the per-project counters. -/
def process_job (branches tags : String → Option String)
    (keep_timedelta now : Int) (kb kt delete_logs : Bool) (dry_run : Bool)
    (job : Job) : List Event × Nat × Nat :=
  match job_decision branches tags keep_timedelta now kb kt delete_logs job with
  | Decision.skip => ([], 0, 0)
  | Decision.delete n =>
    let events :=
      if delete_logs then
        if !dry_run then [Event.eraseCall job.id, Event.logDeleted true job.id]
        else [Event.logWouldDelete true job.id]
      else
        if !dry_run then [Event.deleteArtifactsCall job.id, Event.logDeleted false job.id]
        else [Event.logWouldDelete false job.id]
    (events, 1, n)

/-- The job loop itself, accumulating events in listing order together with
`cleaned_job_count_project` and `artifacts_size_project`. -/
def jobs_loop (branches tags : String → Option String)
    (keep_timedelta now : Int) (kb kt delete_logs dry_run : Bool) :
    List Job → List Event × Nat × Nat
  | [] => ([], 0, 0)
  | job :: rest =>
    let step := process_job branches tags keep_timedelta now kb kt delete_logs dry_run job
    let acc := jobs_loop branches tags keep_timedelta now kb kt delete_logs dry_run rest
    (step.1 ++ acc.1, step.2.1 + acc.2.1, step.2.2 + acc.2.2)

/-- One iteration of the repository loop for a resolved project
(lines 67–158): log the scan, build the branch and tag dictionaries, run the
job loop and emit the per-project summary line. -/
def process_project (keep_timedelta now : Int) (kb kt delete_logs dry_run : Bool)
    (project : Project) : List Event × Nat × Nat :=
  let branches_to_hash := dict_of_list project.branches
  let tags_to_hash := dict_of_list project.tags
  let scan := jobs_loop branches_to_hash tags_to_hash keep_timedelta now
    kb kt delete_logs dry_run project.jobs
  let summary :=
    if scan.2.1 > 0 then [Event.projectSummary project.path_with_namespace scan.2.1 scan.2.2]
    else [Event.projectSummaryNone project.path_with_namespace]
  (Event.scanning project.path_with_namespace :: scan.1 ++ summary, scan.2.1, scan.2.2)

/-- `ProjectGetError` (lines 16–17, raised at lines 65–66): carries the
formatted message and the wrapped `GitlabGetError` cause. -/
structure ProjectGetError where
  message : String
  cause : String
  deriving DecidableEq, Repr

/-- The repository loop (lines 62–168) with its running totals and the
repository count; on a failed project lookup it aborts with
`ProjectGetError`, and after the last repository it emits the grand-total
summary when more than one repository was processed. -/
def repos_loop (server : GitlabServer) (keep_timedelta now : Int)
    (kb kt delete_logs dry_run : Bool) :
    List String → Nat → Nat → Nat → Except ProjectGetError (List Event × Nat × Nat)
  | [], cleaned_total, size_total, repository_count =>
    let final :=
      if repository_count > 1 then
        if cleaned_total > 0 then [Event.totalSummary cleaned_total size_total]
        else [Event.totalSummaryNone]
      else []
    Except.ok (final, cleaned_total, size_total)
  | repository_path :: rest, cleaned_total, size_total, repository_count =>
    match server.get_project repository_path with
    | Except.error e =>
      Except.error
        ⟨"Could not get project \"" ++ repository_path ++ "\": " ++ e, e⟩
    | Except.ok project =>
      let scan := process_project keep_timedelta now kb kt delete_logs dry_run project
      match repos_loop server keep_timedelta now kb kt delete_logs dry_run rest
          (cleaned_total + scan.2.1) (size_total + scan.2.2) (repository_count + 1) with
      | Except.error err => Except.error err
      | Except.ok rest_result =>
        Except.ok (scan.1 ++ rest_result.1, rest_result.2.1, rest_result.2.2)

/-- The `Union[str, Iterable[str]]` first argument of
`delete_old_artifacts`. -/
inductive ReposArg where
  | single (s : String) : ReposArg
  | many (l : List String) : ReposArg
  deriving DecidableEq, Repr

/-- `Gitlab.delete_old_artifacts` (lines 34–168): wrap a bare string into a
one-element list (lines 56–57), compute `keep_timedelta` and run the
repository loop.  `now` is an explicit parameter of the model; the result is
the event trace together with the final totals, or a `ProjectGetError`. -/
def delete_old_artifacts (server : GitlabServer) (dry_run : Bool) (now : Int)
    (repository_paths_with_namespace : ReposArg) (days_to_keep : Nat)
    (keep_artifacts_of_latest_branch_commit : Bool := true)
    (keep_artifacts_of_tags : Bool := true)
    (delete_logs : Bool := false) :
    Except ProjectGetError (List Event × Nat × Nat) :=
  let keep_timedelta : Int := (days_to_keep : Int) * 86400
  let paths :=
    match repository_paths_with_namespace with
    | ReposArg.single s => [s]
    | ReposArg.many l => l
  repos_loop server keep_timedelta now
    keep_artifacts_of_latest_branch_commit keep_artifacts_of_tags delete_logs dry_run
    paths 0 0 0

/-! ### `config.py` / `cli.py`: configuration checks before network access -/

/-- `VERBOSITY_CHOICES` (config.py line 29). -/
def VERBOSITY_CHOICES : List String := ["quiet", "error", "warn", "verbose", "debug"]

/-- `KEEP_ARTIFACTS_CHOICES` (config.py line 41). -/
def KEEP_ARTIFACTS_CHOICES : List String :=
  ["none", "branch_artifacts", "tag_artifacts", "branch_and_tag_artifacts"]

/-- `KeepArtifacts` (config.py lines 32–38). -/
inductive KeepArtifacts where
  | NONE : KeepArtifacts
  | BRANCH_ARTIFACTS : KeepArtifacts
  | TAG_ARTIFACTS : KeepArtifacts
  | BRANCH_AND_TAG_ARTIFACTS : KeepArtifacts
  deriving DecidableEq, Repr

/-- `KeepArtifacts[keep_string.upper()]` for a string already validated
against `KEEP_ARTIFACTS_CHOICES`. -/
def keep_artifacts_of_string : String → KeepArtifacts
  | "branch_artifacts" => KeepArtifacts.BRANCH_ARTIFACTS
  | "tag_artifacts" => KeepArtifacts.TAG_ARTIFACTS
  | "branch_and_tag_artifacts" => KeepArtifacts.BRANCH_AND_TAG_ARTIFACTS
  | _ => KeepArtifacts.NONE

/-- The configuration values that feed the CLI run. -/
structure ConfigData where
  verbosity_string : String
  always_keep_string : String
  repository_paths : List String
  days_to_keep : Nat
  delete_logs : Bool
  deriving DecidableEq, Repr

/-- `Config.always_keep` (config.py lines 120–134): reject a value outside
`KEEP_ARTIFACTS_CHOICES` with `UnknownAlwaysKeepError` (whose message, as in
the source, lists `VERBOSITY_CHOICES`). -/
def config_always_keep (cfg : ConfigData) : Except String KeepArtifacts :=
  if KEEP_ARTIFACTS_CHOICES.contains cfg.always_keep_string then
    Except.ok (keep_artifacts_of_string cfg.always_keep_string)
  else
    Except.error
      ("The value " ++ cfg.always_keep_string ++ " is unknow. Valid choices are \""
        ++ String.intercalate "\", \"" VERBOSITY_CHOICES ++ "\".")

/-- `Config.verbosity` (config.py lines 170–185): reject a value outside
`VERBOSITY_CHOICES` with `UnknownVerbosityLevelError`. -/
def config_verbosity (cfg : ConfigData) : Except String String :=
  if VERBOSITY_CHOICES.contains cfg.verbosity_string then
    Except.ok cfg.verbosity_string
  else
    Except.error
      ("The verbosity level \"" ++ cfg.verbosity_string ++ "\" is unknown."
        ++ " You can choose from \"" ++ String.intercalate "\", \"" VERBOSITY_CHOICES ++ "\".")

/-- The error outcomes of a CLI run that the model distinguishes. -/
inductive CliError where
  | unknownAlwaysKeep (message : String) : CliError
  | unknownVerbosity (message : String) : CliError
  | projectGet (e : ProjectGetError) : CliError
  deriving DecidableEq, Repr

/-- The CLI pipeline (cli.py): building the argument parser evaluates
`config.always_keep` (line 71) and then `config.verbosity` (line 125), so an
unknown configuration value raises before `handle_clean_artifacts` ever
contacts the server; the returned trace holds every event of the run (empty
when a configuration error aborts it before any network activity). -/
def cli_main (cfg : ConfigData) (server : GitlabServer) (dry_run : Bool)
    (now : Int) : List Event × Except CliError Unit :=
  match config_always_keep cfg with
  | Except.error m => ([], Except.error (CliError.unknownAlwaysKeep m))
  | Except.ok always_keep =>
    match config_verbosity cfg with
    | Except.error m => ([], Except.error (CliError.unknownVerbosity m))
    | Except.ok _ =>
      let kb := always_keep = KeepArtifacts.BRANCH_AND_TAG_ARTIFACTS
        ∨ always_keep = KeepArtifacts.BRANCH_ARTIFACTS
      let kt := always_keep = KeepArtifacts.BRANCH_AND_TAG_ARTIFACTS
        ∨ always_keep = KeepArtifacts.TAG_ARTIFACTS
      match delete_old_artifacts server dry_run now
          (ReposArg.many cfg.repository_paths) cfg.days_to_keep
          (decide kb) (decide kt) cfg.delete_logs with
      | Except.error e => ([], Except.error (CliError.projectGet e))
      | Except.ok result => (result.1, Except.ok ())

/-! ### Concrete fixtures used by witnesses -/

/-- A branch index with a single branch `main` at commit `c1`. -/
def main_index : String → Option String :=
  fun r => if r = "main" then some "c1" else none

/-- An empty index. -/
def empty_index : String → Option String := fun _ => none

/-- A job on the head of `main` with one archive artifact. -/
def head_job : Job :=
  ⟨1, "main", some "c1", [⟨"archive", some 409600⟩], 0⟩

/-- A stale job (commit `c2` no longer the head of `main`) with one archive
artifact and one trace log. -/
def stale_job : Job :=
  ⟨2, "main", some "c2", [⟨"archive", some 100⟩, ⟨"trace", some 7⟩], 0⟩

/-! ### Claims -/

/-- C1: `job_branch` equals the job's ref iff the job's commit is non-null
and the branch index maps that ref to exactly that commit; otherwise it is
absent.  The same computation (`job_link`) serves `job_tag`, and a job with
neither link is described as dangling. -/
theorem C1_job_link_characterization :
    ∀ (index : String → Option String) (job : Job),
      (job_link index job = some job.ref ↔
        ∃ c, job.commit = some c ∧ index job.ref = some c)
      ∧ ((¬ ∃ c, job.commit = some c ∧ index job.ref = some c) →
        job_link index job = none)
      ∧ (∀ (i : Nat) (t : String) (s : Nat),
        ∃ p, job_description i t s none none = p ++ ", dangling") := by
  intro index job
  refine ⟨?_, ?_, fun i t s => ⟨_, rfl⟩⟩
  · cases h : job.commit with
    | none => simp [job_link, h]
    | some c =>
      simp only [job_link, h, Option.some.injEq]
      by_cases hi : index job.ref = some c
      · simp [hi]
      · simp only [hi, if_false]
        constructor
        · intro hfalse; cases hfalse
        · rintro ⟨c', hc', hic'⟩
          cases hc'
          exact absurd hic' hi
  · intro hne
    cases h : job.commit with
    | none => simp [job_link, h]
    | some c =>
      simp only [job_link, h]
      rw [if_neg]
      intro hi
      exact hne ⟨c, h, hi⟩

/-- Witness for C1 at a concrete index and job. -/
theorem C1_witness :
    job_link main_index head_job = some head_job.ref :=
  (C1_job_link_characterization main_index head_job).1.mpr ⟨"c1", rfl, by decide⟩

/-- C3: with the protect-branch-heads flag set and `job_branch` present the
decision is Skip, and with the protect-tags flag set and `job_tag` present
the decision is Skip — with no assumption on the job's age. -/
theorem C3_protection_overrides_age :
    ∀ (branches tags : String → Option String) (keep_timedelta now : Int)
      (kb kt dl : Bool) (job : Job),
      (kb = true → (job_link branches job).isSome = true →
        job_decision branches tags keep_timedelta now kb kt dl job = Decision.skip)
      ∧ (kt = true → (job_link tags job).isSome = true →
        job_decision branches tags keep_timedelta now kb kt dl job = Decision.skip) := by
  intro branches tags keep_timedelta now kb kt dl job
  constructor
  · intro hkb hlink
    simp [job_decision, job_skip_condition, hkb, hlink]
  · intro hkt hlink
    simp [job_decision, job_skip_condition, hkt, hlink]

/-- Witness for C3: the end-to-end scenario of the spec — one branch `main`
at commit `c1`, a job on `main` at `c1` with one archive artifact, created
10 days before `now`, a 7-day minimum age and branch-head protection on —
is skipped even though it is old enough by age. -/
theorem C3_witness :
    job_decision (dict_of_list [("main", "c1")]) empty_index
      604800 864000 true true false head_job = Decision.skip :=
  (C3_protection_overrides_age (dict_of_list [("main", "c1")]) empty_index
    604800 864000 true true false head_job).1 rfl (by decide)

/-- C4: a job with no artifact records is skipped, and in artifacts-only
mode (logs are not deleted) a job with no `"archive"` artifact is skipped. -/
theorem C4_no_relevant_artifacts_skip :
    ∀ (branches tags : String → Option String) (keep_timedelta now : Int)
      (kb kt dl : Bool) (job : Job),
      (job.artifacts = [] →
        job_decision branches tags keep_timedelta now kb kt dl job = Decision.skip)
      ∧ (dl = false → (∀ a ∈ job.artifacts, a.file_type ≠ "archive") →
        job_decision branches tags keep_timedelta now kb kt dl job = Decision.skip) := by
  intro branches tags keep_timedelta now kb kt dl job
  constructor
  · intro hempty
    simp [job_decision, job_skip_condition, hempty]
  · intro hdl hnoarchive
    have hany : job.artifacts.any (fun artifact => artifact.file_type == "archive") = false := by
      rw [List.any_eq_false]
      intro a ha
      simp [hnoarchive a ha]
    simp [job_decision, job_skip_condition, hdl, hany]

/-- Witness for C4 at a job with an empty artifact list. -/
theorem C4_witness :
    job_decision empty_index empty_index 604800 864000 true true false
      ⟨3, "main", some "c1", [], 0⟩ = Decision.skip :=
  (C4_no_relevant_artifacts_skip empty_index empty_index 604800 864000 true true false
    ⟨3, "main", some "c1", [], 0⟩).1 rfl

/-- C10: passing a single repository path as a bare string is equivalent to
passing the one-element list holding it — the whole run result (events,
deletion calls, statistics, summaries) coincides. -/
theorem C10_single_string_eq_singleton_list :
    ∀ (server : GitlabServer) (dry_run : Bool) (now : Int) (s : String)
      (days_to_keep : Nat) (kb kt dl : Bool),
      delete_old_artifacts server dry_run now (ReposArg.single s) days_to_keep kb kt dl
        = delete_old_artifacts server dry_run now (ReposArg.many [s]) days_to_keep kb kt dl := by
  intro server dry_run now s days_to_keep kb kt dl
  rfl

/-- C2: for a job that passes the artifact and protection guards the age
guard is inclusive — age `≤` the threshold skips the job, and a strictly
greater age (one extra second suffices, timestamps being in seconds) makes
it eligible for deletion. -/
theorem C2_age_guard_inclusive :
    ∀ (branches tags : String → Option String) (keep_timedelta now : Int)
      (kb kt dl : Bool) (job : Job),
      job.artifacts ≠ [] →
      (dl = true ∨ job.artifacts.any (fun artifact => artifact.file_type == "archive") = true) →
      (kb && (job_link branches job).isSome) = false →
      (kt && (job_link tags job).isSome) = false →
      ((now - job.created_at ≤ keep_timedelta →
        job_decision branches tags keep_timedelta now kb kt dl job = Decision.skip)
      ∧ (keep_timedelta < now - job.created_at →
        job_decision branches tags keep_timedelta now kb kt dl job
          = Decision.delete (artifacts_size dl job.artifacts))) := by
  intro branches tags keep_timedelta now kb kt dl job hne harch hbr htg
  constructor
  · intro hyoung
    simp [job_decision, job_skip_condition, hyoung]
  · intro hold
    have hempty : job.artifacts.isEmpty = false := by
      cases h : job.artifacts with
      | nil => exact absurd h hne
      | cons a t => rfl
    have hage : decide (now - job.created_at ≤ keep_timedelta) = false := by
      simp [not_le.mpr hold]
    rcases harch with hdl | hany
    · simp [job_decision, job_skip_condition, hempty, hdl, hbr, htg, hage]
      omega
    · simp [job_decision, job_skip_condition, hempty, hany, hbr, htg, hage]
      omega

/-- Witness for C2: a dangling job one second past the 7-day threshold is
deleted. -/
theorem C2_witness :
    job_decision empty_index empty_index 604800 604801 true true false stale_job
      = Decision.delete (artifacts_size false stale_job.artifacts) :=
  (C2_age_guard_inclusive empty_index empty_index 604800 604801 true true false stale_job
    (by decide) (Or.inr (by decide)) (by decide) (by decide)).2 (by decide)

/-- Unfolding one artifact of `artifacts_size`. -/
lemma artifacts_size_cons (dl : Bool) (a : Artifact) (t : List Artifact) :
    artifacts_size dl (a :: t)
      = (if (dl || a.file_type == "archive") = true then a.size.getD 0 else 0)
        + artifacts_size dl t := by
  by_cases hb : (dl || a.file_type == "archive") = true
  · simp [artifacts_size, List.filter_cons, hb]
  · simp [artifacts_size, List.filter_cons, hb]

/-- `artifacts_size` equals the per-artifact sum in which an artifact
contributes its size (null counting as 0) exactly when logs are deleted too
or its file type is `"archive"`, and contributes 0 otherwise. -/
lemma artifacts_size_eq_sum_over_all (dl : Bool) (l : List Artifact) :
    artifacts_size dl l
      = (l.map (fun artifact =>
          if dl = true ∨ artifact.file_type = "archive" then artifact.size.getD 0 else 0)).sum := by
  induction l with
  | nil => rfl
  | cons a t ih =>
    rw [artifacts_size_cons, ih, List.map_cons, List.sum_cons]
    simp only [Bool.or_eq_true, beq_iff_eq]

/-- C5: a Delete decision reclaims exactly the summed sizes of the artifacts
that are archives or — when logs are deleted — of all artifacts, null sizes
counting as 0; and when logs are not deleted, prepending a non-archive
artifact changes neither the decision nor the reclaimed size. -/
theorem C5_reclaimable_size :
    ∀ (branches tags : String → Option String) (keep_timedelta now : Int)
      (kb kt dl : Bool) (job : Job) (n : Nat) (a : Artifact),
      (job_decision branches tags keep_timedelta now kb kt dl job = Decision.delete n →
        n = (job.artifacts.map (fun artifact =>
          if dl = true ∨ artifact.file_type = "archive" then artifact.size.getD 0 else 0)).sum)
      ∧ (dl = false → a.file_type ≠ "archive" →
        job_decision branches tags keep_timedelta now kb kt dl
            { job with artifacts := a :: job.artifacts }
          = job_decision branches tags keep_timedelta now kb kt dl job) := by
  intro branches tags keep_timedelta now kb kt dl job n a
  constructor
  · intro hdel
    rw [job_decision] at hdel
    by_cases hc : job_skip_condition branches tags keep_timedelta now kb kt dl job = true
    · rw [if_pos hc] at hdel
      cases hdel
    · rw [if_neg hc] at hdel
      cases hdel
      exact artifacts_size_eq_sum_over_all dl job.artifacts
  · intro hdl ha
    subst hdl
    have hb : (a.file_type == "archive") = false := by simp [ha]
    obtain ⟨jid, jref, jcommit, jarts, jcreated⟩ := job
    cases jarts with
    | nil =>
      simp [job_decision, job_skip_condition, hb]
    | cons b t =>
      have hlb : job_link branches (Job.mk jid jref jcommit (a :: b :: t) jcreated)
          = job_link branches (Job.mk jid jref jcommit (b :: t) jcreated) := rfl
      have hlt : job_link tags (Job.mk jid jref jcommit (a :: b :: t) jcreated)
          = job_link tags (Job.mk jid jref jcommit (b :: t) jcreated) := rfl
      simp [job_decision, job_skip_condition, artifacts_size, List.filter_cons, hb, hlb, hlt]

/-- Witness for C5: prepending the trace artifact of `stale_job` to
`head_job` does not change the decision on `head_job`. -/
theorem C5_witness :
    job_decision empty_index empty_index 604800 864000 true true false
        { head_job with artifacts := Artifact.mk "trace" (some 7) :: head_job.artifacts }
      = job_decision empty_index empty_index 604800 864000 true true false head_job :=
  (C5_reclaimable_size empty_index empty_index 604800 864000 true true false head_job 0
    (Artifact.mk "trace" (some 7))).2 rfl (by decide)

/-- C8: `human_size` maps 0 to `"0.00 B"`, 1536 to `"1.50 KiB"` and 2^30 to
`"1.00 GiB"`; in general the value is divided by 1024 per unit step through
B, KiB, MiB and GiB, and everything from 1024^4 bytes on — including
1024 TiB and more — is rendered in TiB. -/
theorem C8_human_size_formatting :
    human_size 0 = "0.00 B"
    ∧ human_size 1536 = "1.50 KiB"
    ∧ human_size 1073741824 = "1.00 GiB"
    ∧ (∀ n, n < 1024 → human_size n = format_fixed2 n 1 ++ " B")
    ∧ (∀ n, 1024 ≤ n → n < 1024 ^ 2 → human_size n = format_fixed2 n 1024 ++ " KiB")
    ∧ (∀ n, 1024 ^ 2 ≤ n → n < 1024 ^ 3 → human_size n = format_fixed2 n (1024 ^ 2) ++ " MiB")
    ∧ (∀ n, 1024 ^ 3 ≤ n → n < 1024 ^ 4 → human_size n = format_fixed2 n (1024 ^ 3) ++ " GiB")
    ∧ (∀ n, 1024 ^ 4 ≤ n → human_size n = format_fixed2 n (1024 ^ 4) ++ " TiB") := by
  refine ⟨by decide, by decide, by decide, ?_, ?_, ?_, ?_, ?_⟩
  · intro n h
    simp only [human_size, human_size_units, List.dropLast, List.getLastD, human_size_go]
    rw [if_pos (by omega), String.append_assoc]
    rfl
  · intro n h1 h2
    have h2' : n < 1048576 := by norm_num at h2; omega
    simp only [human_size, human_size_units, List.dropLast, List.getLastD, human_size_go]
    rw [if_neg (by omega), if_pos (by omega)]
    norm_num
    rw [String.append_assoc]
    rfl
  · intro n h1 h2
    have h1' : 1048576 ≤ n := by norm_num at h1; omega
    have h2' : n < 1073741824 := by norm_num at h2; omega
    simp only [human_size, human_size_units, List.dropLast, List.getLastD, human_size_go]
    rw [if_neg (by omega), if_neg (by omega), if_pos (by omega)]
    norm_num
    rw [String.append_assoc]
    rfl
  · intro n h1 h2
    have h1' : 1073741824 ≤ n := by norm_num at h1; omega
    have h2' : n < 1099511627776 := by norm_num at h2; omega
    simp only [human_size, human_size_units, List.dropLast, List.getLastD, human_size_go]
    rw [if_neg (by omega), if_neg (by omega), if_neg (by omega), if_pos (by omega)]
    norm_num
    rw [String.append_assoc]
    rfl
  · intro n h1
    have h1' : 1099511627776 ≤ n := by norm_num at h1; omega
    simp only [human_size, human_size_units, List.dropLast, List.getLastD, human_size_go]
    rw [if_neg (by omega), if_neg (by omega), if_neg (by omega), if_neg (by omega)]
    norm_num
    rw [String.append_assoc]
    rfl

/-- Witness for C8: one exabyte-scale value beyond 1024 TiB still renders in
TiB. -/
theorem C8_witness :
    human_size 1152921504606846976 = format_fixed2 1152921504606846976 (1024 ^ 4) ++ " TiB" :=
  C8_human_size_formatting.2.2.2.2.2.2.2 1152921504606846976 (by norm_num)

/-- C9: an unknown always-keep (retention-scope) value or an unknown
verbosity value aborts the CLI run with the corresponding configuration
error and an empty event trace — in particular the data source is never
contacted.  The always-keep value is checked first, as in the source. -/
theorem C9_config_errors_before_network :
    ∀ (cfg : ConfigData) (server : GitlabServer) (dry_run : Bool) (now : Int),
      (KEEP_ARTIFACTS_CHOICES.contains cfg.always_keep_string = false →
        ∃ m, cli_main cfg server dry_run now
          = ([], Except.error (CliError.unknownAlwaysKeep m)))
      ∧ (KEEP_ARTIFACTS_CHOICES.contains cfg.always_keep_string = true →
        VERBOSITY_CHOICES.contains cfg.verbosity_string = false →
        ∃ m, cli_main cfg server dry_run now
          = ([], Except.error (CliError.unknownVerbosity m))) := by
  intro cfg server dry_run now
  constructor
  · intro hak
    simp only [cli_main, config_always_keep, hak, Bool.false_eq_true, if_false]
    exact ⟨_, rfl⟩
  · intro hak hv
    simp only [cli_main, config_always_keep, config_verbosity, hak, hv, if_true,
      Bool.false_eq_true, if_false]
    exact ⟨_, rfl⟩

/-- Witness for C9 at a configuration with an unknown always-keep value. -/
theorem C9_witness :
    ∃ m, cli_main ⟨"verbose", "bogus", ["group/project"], 7, false⟩
        ⟨fun _ => Except.error "404"⟩ false 0
      = ([], Except.error (CliError.unknownAlwaysKeep m)) :=
  (C9_config_errors_before_network ⟨"verbose", "bogus", ["group/project"], 7, false⟩
    ⟨fun _ => Except.error "404"⟩ false 0).1 (by decide)

/-- The repository loop aborts with the `ProjectGetError` of the first
unresolvable path, for any accumulator values and whatever comes after it. -/
lemma repos_loop_error_on_first_bad (server : GitlabServer)
    (keep_timedelta now : Int) (kb kt dl dry_run : Bool)
    (bad cause : String) (post : List String)
    (hbad : server.get_project bad = Except.error cause) :
    ∀ (pre : List String), (∀ p ∈ pre, ∃ proj, server.get_project p = Except.ok proj) →
    ∀ (cleaned_total size_total repository_count : Nat),
      repos_loop server keep_timedelta now kb kt dl dry_run (pre ++ bad :: post)
          cleaned_total size_total repository_count
        = Except.error ⟨"Could not get project \"" ++ bad ++ "\": " ++ cause, cause⟩ := by
  intro pre
  induction pre with
  | nil =>
    intro _ cleaned_total size_total repository_count
    simp only [List.nil_append, repos_loop, hbad]
  | cons p rest ih =>
    intro hok cleaned_total size_total repository_count
    obtain ⟨proj, hp⟩ := hok p (List.mem_cons_self p rest)
    have ih' := ih (fun q hq => hok q (List.mem_cons_of_mem p hq))
    simp only [List.cons_append, repos_loop, hp]
    have hconv : rest.append (bad :: post) = rest ++ bad :: post := rfl
    rw [hconv, ih']

/-- C7: when a repository path in the argument list cannot be resolved and
every path before it resolves, the run fails with a `ProjectGetError` whose
message names the failing path and whose cause is the wrapped lookup error —
and the result does not depend on the paths after the failing one, which are
never processed. -/
theorem C7_lookup_failure_aborts_run :
    ∀ (server : GitlabServer) (dry_run : Bool) (now : Int)
      (pre post : List String) (bad cause : String)
      (days_to_keep : Nat) (kb kt dl : Bool),
      (∀ p ∈ pre, ∃ proj, server.get_project p = Except.ok proj) →
      server.get_project bad = Except.error cause →
      delete_old_artifacts server dry_run now (ReposArg.many (pre ++ bad :: post))
          days_to_keep kb kt dl
        = Except.error ⟨"Could not get project \"" ++ bad ++ "\": " ++ cause, cause⟩ := by
  intro server dry_run now pre post bad cause days_to_keep kb kt dl hok hbad
  exact repos_loop_error_on_first_bad server ((days_to_keep : Int) * 86400) now
    kb kt dl dry_run bad cause post hbad pre hok 0 0 0

/-- A one-project server used by the C7 witness. -/
def one_project_server : GitlabServer :=
  ⟨fun p =>
    if p = "group/a" then
      Except.ok ⟨"group/a", [("main", "c1")], [], [stale_job]⟩
    else Except.error "404 Project Not Found"⟩

/-- Witness for C7: with `"group/a"` resolvable and `"missing"` not, the run
over `["group/a", "missing", "later"]` fails with the expected
`ProjectGetError`. -/
theorem C7_witness :
    delete_old_artifacts one_project_server false 864000
        (ReposArg.many (["group/a"] ++ "missing" :: ["later"])) 7 true true false
      = Except.error
          ⟨"Could not get project \"missing\": 404 Project Not Found",
            "404 Project Not Found"⟩ :=
  C7_lookup_failure_aborts_run one_project_server false 864000
    ["group/a"] ["later"] "missing" "404 Project Not Found" 7 true true false
    (by
      intro p hp
      simp only [List.mem_singleton] at hp
      subst hp
      exact ⟨⟨"group/a", [("main", "c1")], [], [stale_job]⟩, rfl⟩)
    rfl

/-- The events a dry run must not produce: the destructive remote calls and
the "Deleted ..." log lines (as opposed to "Would delete ..."). -/
def Event.dry_forbidden : Event → Bool
  | Event.eraseCall _ => true
  | Event.deleteArtifactsCall _ => true
  | Event.logDeleted _ _ => true
  | _ => false

/-- The cleaned-job count and reclaimed-size total of a run result. -/
def run_stats (result : List Event × Nat × Nat) : Nat × Nat :=
  (result.2.1, result.2.2)

/-- The counter increments of one job do not depend on the dry-run flag. -/
lemma process_job_stats_dry_invariant (branches tags : String → Option String)
    (keep_timedelta now : Int) (kb kt dl : Bool) (d d' : Bool) (job : Job) :
    (process_job branches tags keep_timedelta now kb kt dl d job).2
      = (process_job branches tags keep_timedelta now kb kt dl d' job).2 := by
  unfold process_job
  cases job_decision branches tags keep_timedelta now kb kt dl job with
  | skip => rfl
  | delete n => rfl

/-- A dry-run job step only emits "would delete" events. -/
lemma process_job_dry_events (branches tags : String → Option String)
    (keep_timedelta now : Int) (kb kt dl : Bool) (job : Job) :
    ∀ e ∈ (process_job branches tags keep_timedelta now kb kt dl true job).1,
      Event.dry_forbidden e = false := by
  unfold process_job
  cases job_decision branches tags keep_timedelta now kb kt dl job with
  | skip => intro e he; simp at he
  | delete n =>
    intro e he
    cases dl <;> simp at he <;> rw [he] <;> rfl

/-- The per-project counters do not depend on the dry-run flag. -/
lemma jobs_loop_stats_dry_invariant (branches tags : String → Option String)
    (keep_timedelta now : Int) (kb kt dl : Bool) (d d' : Bool) (jobs : List Job) :
    (jobs_loop branches tags keep_timedelta now kb kt dl d jobs).2
      = (jobs_loop branches tags keep_timedelta now kb kt dl d' jobs).2 := by
  induction jobs with
  | nil => rfl
  | cons job rest ih =>
    simp only [jobs_loop]
    cases h : job_decision branches tags keep_timedelta now kb kt dl job with
    | skip => simp [process_job, h, ih]
    | delete n => simp [process_job, h, ih]

/-- A dry-run job loop only emits "would delete" events. -/
lemma jobs_loop_dry_events (branches tags : String → Option String)
    (keep_timedelta now : Int) (kb kt dl : Bool) (jobs : List Job) :
    ∀ e ∈ (jobs_loop branches tags keep_timedelta now kb kt dl true jobs).1,
      Event.dry_forbidden e = false := by
  induction jobs with
  | nil => intro e he; simp [jobs_loop] at he
  | cons job rest ih =>
    intro e he
    simp only [jobs_loop, List.mem_append] at he
    rcases he with he | he
    · exact process_job_dry_events branches tags keep_timedelta now kb kt dl job e he
    · exact ih e he

/-- The per-project statistics do not depend on the dry-run flag. -/
lemma process_project_stats_dry_invariant (keep_timedelta now : Int)
    (kb kt dl : Bool) (d d' : Bool) (project : Project) :
    (process_project keep_timedelta now kb kt dl d project).2
      = (process_project keep_timedelta now kb kt dl d' project).2 := by
  simp only [process_project]
  rw [jobs_loop_stats_dry_invariant (dict_of_list project.branches)
    (dict_of_list project.tags) keep_timedelta now kb kt dl d d' project.jobs]

/-- A dry-run project scan only emits scanning, "would delete" and summary
events. -/
lemma process_project_dry_events (keep_timedelta now : Int)
    (kb kt dl : Bool) (project : Project) :
    ∀ e ∈ (process_project keep_timedelta now kb kt dl true project).1,
      Event.dry_forbidden e = false := by
  intro e he
  simp only [process_project, List.mem_cons, List.mem_append] at he
  rcases he with (rfl | he) | he
  · rfl
  · exact jobs_loop_dry_events (dict_of_list project.branches)
      (dict_of_list project.tags) keep_timedelta now kb kt dl project.jobs e he
  · rcases Nat.lt_or_ge 0 ((jobs_loop (dict_of_list project.branches)
        (dict_of_list project.tags) keep_timedelta now kb kt dl true project.jobs).2.1) with hc | hc
    · rw [if_pos hc] at he
      simp only [List.mem_singleton] at he
      rw [he]; rfl
    · rw [if_neg (by omega)] at he
      simp only [List.mem_singleton] at he
      rw [he]; rfl

/-- For any accumulators the repository loop either fails identically under
both dry-run flags, or succeeds with the same totals. -/
lemma repos_loop_dry_invariant (server : GitlabServer)
    (keep_timedelta now : Int) (kb kt dl : Bool) (d d' : Bool) :
    ∀ (paths : List String) (c s r : Nat),
      (∃ err, repos_loop server keep_timedelta now kb kt dl d paths c s r = Except.error err
        ∧ repos_loop server keep_timedelta now kb kt dl d' paths c s r = Except.error err)
      ∨ (∃ tr tr' cnt size,
          repos_loop server keep_timedelta now kb kt dl d paths c s r
            = Except.ok (tr, cnt, size)
          ∧ repos_loop server keep_timedelta now kb kt dl d' paths c s r
            = Except.ok (tr', cnt, size)) := by
  intro paths
  induction paths with
  | nil =>
    intro c s r
    exact Or.inr ⟨_, _, c, s, rfl, rfl⟩
  | cons p rest ih =>
    intro c s r
    cases hp : server.get_project p with
    | error err =>
      refine Or.inl ⟨⟨"Could not get project \"" ++ p ++ "\": " ++ err, err⟩, ?_, ?_⟩ <;>
        simp only [repos_loop, hp]
    | ok proj =>
      have hpp1 : (process_project keep_timedelta now kb kt dl d' proj).2.1
          = (process_project keep_timedelta now kb kt dl d proj).2.1 := by
        rw [process_project_stats_dry_invariant keep_timedelta now kb kt dl d' d proj]
      have hpp2 : (process_project keep_timedelta now kb kt dl d' proj).2.2
          = (process_project keep_timedelta now kb kt dl d proj).2.2 := by
        rw [process_project_stats_dry_invariant keep_timedelta now kb kt dl d' d proj]
      rcases ih (c + (process_project keep_timedelta now kb kt dl d proj).2.1)
          (s + (process_project keep_timedelta now kb kt dl d proj).2.2) (r + 1) with
        ⟨err, he, he'⟩ | ⟨tr, tr', cnt, size, ho, ho'⟩
      · refine Or.inl ⟨err, ?_, ?_⟩ <;>
          simp only [repos_loop, hp, hpp1, hpp2, he, he']
      · refine Or.inr ⟨(process_project keep_timedelta now kb kt dl d proj).1 ++ tr,
          (process_project keep_timedelta now kb kt dl d' proj).1 ++ tr', cnt, size, ?_, ?_⟩ <;>
          simp only [repos_loop, hp, hpp1, hpp2, ho, ho']

/-- A successful dry repository loop only carries events a dry run may
emit. -/
lemma repos_loop_dry_events (server : GitlabServer)
    (keep_timedelta now : Int) (kb kt dl : Bool) :
    ∀ (paths : List String) (c s r : Nat) (result : List Event × Nat × Nat),
      repos_loop server keep_timedelta now kb kt dl true paths c s r = Except.ok result →
      ∀ e ∈ result.1, Event.dry_forbidden e = false := by
  intro paths
  induction paths with
  | nil =>
    intro c s r result h e he
    simp only [repos_loop] at h
    injection h with h'
    subst h'
    rcases Nat.lt_or_ge 1 r with hr | hr
    · rw [if_pos hr] at he
      rcases Nat.lt_or_ge 0 c with hc | hc
      · rw [if_pos hc] at he
        simp only [List.mem_singleton] at he
        rw [he]; rfl
      · rw [if_neg (by omega)] at he
        simp only [List.mem_singleton] at he
        rw [he]; rfl
    · rw [if_neg (by omega)] at he
      simp at he
  | cons p rest ih =>
    intro c s r result h e he
    simp only [repos_loop] at h
    split at h
    next msg heq => simp at h
    next project heq =>
      split at h
      next err heq2 => simp at h
      next rr heq2 =>
        injection h with h'
        subst h'
        simp only [List.mem_append] at he
        rcases he with he | he
        · exact process_project_dry_events keep_timedelta now kb kt dl project e he
        · exact ih _ _ _ rr heq2 e he

/-- C6: a dry run never emits a destructive remote call (nor a "Deleted"
log line — only "would delete" reports), yet its cleaned-job count and
reclaimed-size total coincide with those of the non-dry run; and in a
non-dry run every Delete decision performs `job.erase()` when logs are
deleted and `job.delete_artifacts()` otherwise, followed by the "Deleted"
log line. -/
theorem C6_dry_run_semantics :
    ∀ (server : GitlabServer) (now : Int) (repos : ReposArg) (days_to_keep : Nat)
      (kb kt dl : Bool),
      (∀ result, delete_old_artifacts server true now repos days_to_keep kb kt dl
          = Except.ok result →
        ∀ e ∈ result.1, Event.dry_forbidden e = false)
      ∧ (delete_old_artifacts server true now repos days_to_keep kb kt dl).map run_stats
        = (delete_old_artifacts server false now repos days_to_keep kb kt dl).map run_stats
      ∧ (∀ (branches tags : String → Option String) (keep_timedelta : Int)
          (job : Job) (n : Nat),
          job_decision branches tags keep_timedelta now kb kt dl job = Decision.delete n →
          process_job branches tags keep_timedelta now kb kt dl false job
            = ((if dl then [Event.eraseCall job.id, Event.logDeleted true job.id]
                else [Event.deleteArtifactsCall job.id, Event.logDeleted false job.id]), 1, n)
          ∧ process_job branches tags keep_timedelta now kb kt dl true job
            = ([Event.logWouldDelete dl job.id], 1, n)) := by
  intro server now repos days_to_keep kb kt dl
  refine ⟨?_, ?_, ?_⟩
  · intro result h e he
    cases repos with
    | single s =>
      exact repos_loop_dry_events server ((days_to_keep : Int) * 86400) now kb kt dl
        [s] 0 0 0 result h e he
    | many l =>
      exact repos_loop_dry_events server ((days_to_keep : Int) * 86400) now kb kt dl
        l 0 0 0 result h e he
  · cases repos with
    | single s =>
      rcases repos_loop_dry_invariant server ((days_to_keep : Int) * 86400) now kb kt dl
          true false [s] 0 0 0 with ⟨err, he, he'⟩ | ⟨tr, tr', cnt, size, ho, ho'⟩
      · simp only [delete_old_artifacts]
        rw [he, he']
      · simp only [delete_old_artifacts]
        rw [ho, ho']
        rfl
    | many l =>
      rcases repos_loop_dry_invariant server ((days_to_keep : Int) * 86400) now kb kt dl
          true false l 0 0 0 with ⟨err, he, he'⟩ | ⟨tr, tr', cnt, size, ho, ho'⟩
      · simp only [delete_old_artifacts]
        rw [he, he']
      · simp only [delete_old_artifacts]
        rw [ho, ho']
        rfl
  · intro branches tags keep_timedelta job n hdec
    constructor
    · cases dl <;> simp [process_job, hdec]
    · cases dl <;> simp [process_job, hdec]

/-- Witness for C6: on the deletable `stale_job` the non-dry step performs
the artifacts-only deletion call while the dry step only reports, both
counting one job of 100 bytes. -/
theorem C6_witness :
    process_job empty_index empty_index 604800 864000 true true false false stale_job
        = ([Event.deleteArtifactsCall 2, Event.logDeleted false 2], 1, 100)
      ∧ process_job empty_index empty_index 604800 864000 true true false true stale_job
        = ([Event.logWouldDelete false 2], 1, 100) :=
  (C6_dry_run_semantics one_project_server 864000 (ReposArg.many []) 7 true true false).2.2
    empty_index empty_index 604800 stale_job 100 (by decide)

end GitlabArtifactCleanup
